import Mathlib

/-
Shallow embedding of pyverbplt (src/pyverbplt.py) in Lean 4.

The repository loads Tecplot-style ASCII "plt" files.  The embedding models a
file as its list of lines (`List String`); Python string operations are
implemented on `List Char` with Python semantics; numeric data tokens are
parsed into exact scaled decimals (`DecNum`), since the loader performs no
arithmetic on the values; numpy arrays are modelled as a shape together with
an entry function (`ArrN`).  Python soft failures (warnings.warn + return)
and uncaught exceptions are modelled as two kinds of `Except` error, so that
a "soft failure, not a crash" claim is statable.
-/

namespace PyVerbPlt

/-- Failure of the loader: `warn` is a soft failure (the source calls
warnings.warn and returns None), `exn` is an uncaught Python exception. -/
inductive LoadErr where
  | warn (msg : String)
  | exn (msg : String)
  deriving DecidableEq

/-- Exact scaled-decimal value of one numeric token: mant * 10 ^ exp.  The
source stores float64; no claim observes arithmetic on data values, so the
decimal literal itself is kept (non-finite tokens are out of scope). -/
structure DecNum where
  mant : Int
  exp : Int
  deriving DecidableEq

def decZero : DecNum := { mant := 0, exp := 0 }

/-- Python whitespace, as used by str.strip and str.split(). -/
def isWs (c : Char) : Bool :=
  c = ' ' || c = '\t' || c = '\n' || c = '\r' || c = '\x0b' || c = '\x0c'

def dropWs : List Char → List Char
  | [] => []
  | c :: rest => if isWs c then dropWs rest else c :: rest

/-- Python str.strip(). -/
def pyStrip (cs : List Char) : List Char :=
  (dropWs (dropWs cs).reverse).reverse

/-- Python str.startswith for a single-character argument. -/
def startsWithChar (cs : List Char) (c : Char) : Bool :=
  match cs with
  | [] => false
  | d :: _ => d = c

def leadsWith : List Char → List Char → Bool
  | [], _ => true
  | _ :: _, [] => false
  | p :: ps, c :: cs => p = c && leadsWith ps cs

/-- Python `pat in hay` substring test. -/
def containsTok (hay pat : List Char) : Bool :=
  match hay with
  | [] => leadsWith pat []
  | _ :: rest => leadsWith pat hay || containsTok rest pat

/-- Python str.split(sep) for a one-character separator: empty pieces kept. -/
def splitSepGo (sep : Char) : List Char → List Char → List (List Char)
  | [], acc => [acc.reverse]
  | c :: rest, acc =>
    if c = sep then acc.reverse :: splitSepGo sep rest []
    else splitSepGo sep rest (c :: acc)

def splitSep (sep : Char) (cs : List Char) : List (List Char) :=
  splitSepGo sep cs []

/-- Python str.split() with no argument: split on whitespace runs. -/
def splitWsGo : List Char → List Char → List (List Char)
  | [], cur => if cur.isEmpty then [] else [cur.reverse]
  | c :: rest, cur =>
    if isWs c then
      if cur.isEmpty then splitWsGo rest [] else cur.reverse :: splitWsGo rest []
    else splitWsGo rest (c :: cur)

def splitWsL (cs : List Char) : List (List Char) :=
  splitWsGo cs []

/-- Captures of re.findall applied with the quoted-substring regular
expression of the source (line 135): the pieces standing between the
2k-th and (2k+1)-th double quote. -/
def quotedGo : List (List Char) → List (List Char)
  | _ :: cap :: rest => if rest.isEmpty then [] else cap :: quotedGo rest
  | _ => []

def quotedL (cs : List Char) : List (List Char) :=
  quotedGo (splitSep '"' cs)

def digitsValGo : List Char → Nat → Option Nat
  | [], acc => some acc
  | c :: rest, acc =>
    if c.isDigit then digitsValGo rest (acc * 10 + (c.toNat - 48)) else none

/-- Value of a non-empty all-digit string. -/
def digitsVal? : List Char → Option Nat
  | [] => none
  | cs => digitsValGo cs 0

/-- Python int(str): optional surrounding whitespace, optional sign, digits. -/
def pyIntOf? (cs : List Char) : Option Int :=
  match pyStrip cs with
  | '-' :: rest => (digitsVal? rest).map (fun n => -(n : Int))
  | '+' :: rest => (digitsVal? rest).map (fun n => (n : Int))
  | rest => (digitsVal? rest).map (fun n => (n : Int))

def expVal? (cs : List Char) : Option Int :=
  match cs with
  | '-' :: rest => (digitsVal? rest).map (fun n => -(n : Int))
  | '+' :: rest => (digitsVal? rest).map (fun n => (n : Int))
  | rest => (digitsVal? rest).map (fun n => (n : Int))

def optDigits? : List Char → Option Nat
  | [] => some 0
  | cs => digitsVal? cs

/-- Mantissa of a decimal literal: returns the digits read as an integer
scaled by the fractional length, together with that length. -/
def mantVal? (cs : List Char) : Option (Nat × Nat) :=
  match splitSep '.' cs with
  | [i] => (digitsVal? i).map (fun n => (n, 0))
  | [i, f] =>
    if i.isEmpty && f.isEmpty then none
    else
      match optDigits? i, optDigits? f with
      | some iv, some fv => some (iv * 10 ^ f.length + fv, f.length)
      | _, _ => none
  | _ => none

def signSplit (t : List Char) : Int × List Char :=
  match t with
  | '-' :: rest => (-1, rest)
  | '+' :: rest => (1, rest)
  | rest => (1, rest)

/-- Finite float literal accepted by np.loadtxt, as an exact decimal. -/
def pyFloatL? (cs : List Char) : Option DecNum :=
  let t := (pyStrip cs).map Char.toLower
  let p := signSplit t
  match splitSep 'e' p.2 with
  | [m] => (mantVal? m).map (fun q => { mant := p.1 * q.1, exp := -(q.2 : Int) })
  | [m, ex] =>
    match mantVal? m, expVal? ex with
    | some q, some e => some { mant := p.1 * q.1, exp := e - (q.2 : Int) }
    | _, _ => none
  | _ => none

def natProd : List Nat → Nat
  | [] => 1
  | d :: ds => d * natProd ds

/-- numpy array of arbitrary rank: a shape and an entry function (row-major
reading is encoded in the index arithmetic of the operations below). -/
structure ArrN where
  shape : List Nat
  entry : List Nat → DecNum

/-- np.zeros. -/
def zerosArr (shape : List Nat) : ArrN :=
  { shape := shape, entry := fun _ => decZero }

/-- Row-major (C-order) position of a multi-index, as used by reshape. -/
def ravel : List Nat → List Nat → Nat
  | [], _ => 0
  | _ :: ds, idx => idx.headD 0 * natProd ds + ravel ds idx.tail

/-- arr[z, :] = flat.reshape(dims)  (source lines 177 and 181). -/
def setZoneArr (a : ArrN) (z : Nat) (dims : List Nat) (flat : List DecNum) : ArrN :=
  { shape := a.shape,
    entry := fun idx =>
      match idx with
      | i :: rest => if i = z then flat.getD (ravel dims rest) decZero else a.entry idx
      | [] => a.entry idx }

/-- Axis images under np.moveaxis(a, [1,2,3], [3,2,1]): positions 1 and 3
swapped.  The loader only applies it to arrays of rank at least 4. -/
def swap13 : List Nat → List Nat
  | a :: b :: c :: d :: rest => a :: d :: c :: b :: rest
  | l => l

/-- np.moveaxis(arr, [1, 2, 3], [3, 2, 1])  (source line 187). -/
def moveaxis13 (a : ArrN) : ArrN :=
  { shape := swap13 a.shape, entry := fun idx => a.entry (swap13 idx) }

def rotShape03 : List Nat → List Nat
  | a :: b :: c :: d :: rest => b :: c :: d :: a :: rest
  | l => l

def rotIdx03 : List Nat → List Nat
  | a :: b :: c :: d :: rest => d :: a :: b :: c :: rest
  | l => l

/-- np.moveaxis(arr, 0, 3)  (source line 193). -/
def moveaxis03 (a : ArrN) : ArrN :=
  { shape := rotShape03 a.shape, entry := fun idx => a.entry (rotIdx03 idx) }

def unsqueezeIdx : List Nat → List Nat → List Nat
  | [], _ => []
  | d :: ds, idx =>
    if d = 1 then 0 :: unsqueezeIdx ds idx
    else idx.headD 0 :: unsqueezeIdx ds idx.tail

/-- np.squeeze  (source line 196). -/
def squeezeArr (a : ArrN) : ArrN :=
  { shape := a.shape.filter (fun d => d ≠ 1),
    entry := fun idx => a.entry (unsqueezeIdx a.shape idx) }

/-- One variable record of load_plt (the dictionary of source line 161). -/
structure VarRec where
  name : String
  arr : ArrN
  comment : List String
  size1 : Nat
  size2 : Nat
  size3 : Nat
  zone : List String

/-- Return value of load_plt: a bare record, a tuple, or a list
(source lines 198-205 distinguish the three). -/
inductive PltOut where
  | one (r : VarRec)
  | tup (rs : List VarRec)
  | lst (rs : List VarRec)

/-- _scan_plt_zones (source lines 208-237): zero-based line indices and raw
text of lines containing "ZONE", and the index of the last line.  On an empty
file the source's loop variable is unbound and the final `return ... i`
raises NameError. -/
def scanPltZones (fileLines : List String) :
    Except LoadErr (List (Nat × String) × Nat) :=
  match fileLines with
  | [] => .error (.exn "NameError: name i is not defined")
  | _ =>
    .ok ((fileLines.enum.filter fun p => containsTok p.2.data "ZONE".data),
         fileLines.length - 1)

/-- Python slice xs[::s] for step s at least 1, via a countdown to the next
kept element. -/
def stridedGo (s : Nat) : List α → Nat → List α
  | [], _ => []
  | x :: rest, 0 => x :: stridedGo s rest (s - 1)
  | _ :: rest, k + 1 => stridedGo s rest k

def strided (s : Nat) (xs : List α) : List α :=
  stridedGo s xs 0

/-- The slicing of source lines 98-106: drop first_zone elements, then either
xs[:n_zones*(skip_zones+1):skip_zones+1] or xs[::skip_zones+1]. -/
def selCore (zones : List α) (first_zone : Nat) (n_zones : Option Nat)
    (skip_zones : Nat) : List α :=
  let zs := zones.drop first_zone
  match n_zones with
  | some n => strided (skip_zones + 1) (zs.take (n * (skip_zones + 1)))
  | none => strided (skip_zones + 1) zs

/-- Zone selection with its two guards (source lines 93-110): the
first_zone bound check before slicing, the emptiness check after. -/
def zoneSelect (zones : List α) (first_zone : Nat) (n_zones : Option Nat)
    (skip_zones : Nat) : Except LoadErr (List α) :=
  if first_zone > zones.length then
    .error (.warn "first_zone is greater than the number of available zones")
  else if (selCore zones first_zone n_zones skip_zones).length = 0 then
    .error (.warn "No zones available to read")
  else .ok (selCore zones first_zone n_zones skip_zones)

/-- Header parsing of one line (source lines 123-136): stripped '#' lines
are collected as comments; a line containing VARIABLES replaces the variable
list with the quoted names of its piece after the first '='. -/
def parseHeaderLine (acc : List String × List String) (rawLine : String) :
    Except LoadErr (List String × List String) :=
  let line := pyStrip rawLine.data
  if startsWithChar line '#' then .ok (acc.1 ++ [String.mk line], acc.2)
  else if containsTok line "VARIABLES".data then
    match (splitSep '=' line).get? 1 with
    | none => .error (.exn "IndexError: list index out of range")
    | some v => .ok (acc.1, (quotedL (pyStrip v)).map String.mk)
  else .ok acc

def parseHeader : List String → List String × List String →
    Except LoadErr (List String × List String)
  | [], acc => .ok acc
  | l :: rest, acc =>
    match parseHeaderLine acc l with
    | .ok acc2 => parseHeader rest acc2
    | .error e => .error e

/-- zone_info of source line 147: the zone line with commas removed, split
on whitespace. -/
def zoneInfoOf (zoneLine : String) : List (List Char) :=
  splitWsL (zoneLine.data.filter fun c => c ≠ ',')

/-- T label of a zone marker (source line 174):
zone_info[1].split('=')[1] with all double quotes removed. -/
def zoneT (zoneLine : String) : Except LoadErr String :=
  match (zoneInfoOf zoneLine).get? 1 with
  | none => .error (.exn "IndexError: list index out of range")
  | some tok =>
    match (splitSep '=' tok).get? 1 with
    | none => .error (.exn "IndexError: list index out of range")
    | some v => .ok (String.mk (v.filter fun c => c ≠ '"'))

def dimsOfInfo : List (List Char) → Except LoadErr (List Int)
  | [] => .ok []
  | d :: rest =>
    match (splitSep '=' d).get? 1 with
    | none => .error (.exn "IndexError: list index out of range")
    | some v =>
      match pyIntOf? v with
      | none => .error (.exn "ValueError: invalid literal for int")
      | some n =>
        match dimsOfInfo rest with
        | .ok ns => .ok (n :: ns)
        | .error e => .error e

/-- Dimensions of a zone marker (source line 153):
int(d.split('=')[1]) for every token of zone_info after the second. -/
def parseDims (zoneLine : String) : Except LoadErr (List Int) :=
  dimsOfInfo ((zoneInfoOf zoneLine).drop 2)

/-- Matrix parsed by np.loadtxt: row and column counts plus the values. -/
structure TxtMat where
  rows : Nat
  cols : Nat
  vals : List (List DecNum)

def rowVals? : List (List Char) → Option (List DecNum)
  | [] => some []
  | t :: rest =>
    match pyFloatL? t, rowVals? rest with
    | some v, some vs => some (v :: vs)
    | _, _ => none

def gridVals? : List (List (List Char)) → Option (List (List DecNum))
  | [] => some []
  | r :: rest =>
    match rowVals? r, gridVals? rest with
    | some v, some vs => some (v :: vs)
    | _, _ => none

/-- Text of a line before its first '#', as np.loadtxt strips comments. -/
def stripComment (cs : List Char) : List Char :=
  match splitSep '#' cs with
  | [] => []
  | h :: _ => h

/-- np.loadtxt over a list of lines (source line 171): comments stripped,
blank lines dropped, every token a float, rows rectangular. -/
def pyLoadtxt (ls : List String) : Except LoadErr TxtMat :=
  let toks := ((ls.map fun l => pyStrip (stripComment l.data)).filter
      (fun cs => ¬ cs.isEmpty)).map splitWsL
  match gridVals? toks with
  | none => .error (.exn "ValueError: could not convert string to float")
  | some vals =>
    match vals with
    | [] => .ok { rows := 0, cols := 0, vals := [] }
    | r0 :: rest =>
      if rest.all (fun r => r.length = r0.length) then
        .ok { rows := vals.length, cols := r0.length, vals := vals }
      else .error (.exn "ValueError: wrong number of columns")

/-- ndim of the loadtxt result: singleton axes are squeezed by loadtxt, an
empty result is the 1-D empty array. -/
def txtNdim (m : TxtMat) : Nat :=
  if m.rows = 0 then 1
  else if m.rows = 1 ∧ m.cols = 1 then 0
  else if m.rows = 1 ∨ m.cols = 1 then 1
  else 2

/-- The 1-D loadtxt result as a flat vector (the single row or column). -/
def txtFlat (m : TxtMat) : List DecNum :=
  if m.rows = 1 then m.vals.headD [] else m.vals.map (fun r => r.getD 0 decZero)

/-- data_zone[:, v]  (source line 181). -/
def txtCol (m : TxtMat) (v : Nat) : List DecNum :=
  m.vals.map (fun r => r.getD v decZero)

/-- State of the zone-reading loop (source lines 113-182): absolute stream
position, the line_counter variable, the zone ordinal z, and the records. -/
structure RdState where
  pos : Nat
  line_counter : Nat
  z : Nat
  data : List VarRec

/-- Number of lines discarded before a zone marker, as an integer:
zones[z] - line_counter + 1  (source line 166).  A negative count means
Python's range is empty and nothing is skipped. -/
def zoneSkip (line_counter zoneIdx : Nat) : Int :=
  (zoneIdx : Int) - (line_counter : Int) + 1

/-- line_counter after a zone: zones[z] + lines_number + 1 (source line 172). -/
def nextCounter (zoneIdx lines_number : Nat) : Nat :=
  zoneIdx + lines_number + 1

/-- The per-variable update of the 2-D branch (source lines 180-182). -/
def updCols (z : Nat) (dims : List Nat) (mat : TxtMat) (T : String) (nv : Nat) :
    Nat → List VarRec → List VarRec
  | _, [] => []
  | v, d :: rest =>
    (if v < nv then
      { d with arr := setZoneArr d.arr z dims (txtCol mat v),
               zone := d.zone ++ [T] }
     else d) :: updCols z dims mat T nv (v + 1) rest

/-- Assignment of one zone's parsed matrix into the records
(source lines 176-182): a 1-D matrix fills variable 0 only; a 2-D matrix
fills column v into variable v for every declared variable. -/
def assign (z : Nat) (dims : List Nat) (nvars : Nat) (mat : TxtMat) (T : String)
    (data : List VarRec) : Except LoadErr (List VarRec) :=
  if txtNdim mat = 1 then
    if (txtFlat mat).length = natProd dims then
      match data with
      | d0 :: rest =>
        .ok ({ d0 with arr := setZoneArr d0.arr z dims (txtFlat mat),
                       zone := d0.zone ++ [T] } :: rest)
      | [] => .error (.exn "IndexError: list index out of range")
    else .error (.exn "ValueError: cannot reshape array")
  else if txtNdim mat = 0 then
    .error (.exn "IndexError: too many indices for array")
  else
    if mat.rows ≠ natProd dims ∧ nvars ≠ 0 then
      .error (.exn "ValueError: cannot reshape array")
    else if mat.cols < nvars ∨ data.length < nvars then
      .error (.exn "IndexError: index out of range")
    else .ok (updCols z dims mat T nvars 0 data)

/-- One iteration of the zone loop (source lines 144-182) for one selected
zone: skip to and past the marker, read lines_number data lines, parse them,
advance line_counter, extract the T label, assign into the records. -/
def readZone (fileLines : List String) (nvars : Nat) (dims : List Nat)
    (lines_number : Nat) (st : RdState) (zone : Nat × String) :
    Except LoadErr RdState :=
  match pyLoadtxt ((List.range lines_number).map fun j =>
      fileLines.getD (st.pos + (zoneSkip st.line_counter zone.1).toNat + j) "") with
  | .error e => .error e
  | .ok mat =>
    match zoneT zone.2 with
    | .error e => .error e
    | .ok T =>
      match assign st.z dims nvars mat T st.data with
      | .error e => .error e
      | .ok data2 =>
        .ok { pos := st.pos + (zoneSkip st.line_counter zone.1).toNat + lines_number,
              line_counter := nextCounter zone.1 lines_number,
              z := st.z + 1,
              data := data2 }

def runZones (fileLines : List String) (nvars : Nat) (dims : List Nat)
    (lines_number : Nat) : List (Nat × String) → RdState →
    Except LoadErr RdState
  | [], st => .ok st
  | zone :: rest, st =>
    match readZone fileLines nvars dims lines_number st zone with
    | .ok st2 => runZones fileLines nvars dims lines_number rest st2
    | .error e => .error e

/-- The whole zone loop (source lines 144-182): dimensions are parsed once,
from the first selected zone's marker (the z == 0 branch), the records are
allocated with shape (len(zones), *dimensions), and every selected zone is
read with that same dimensionality.  An empty selection leaves the data
name unbound in the source (unreachable from load_plt). -/
def readZones (fileLines : List String) (varNames comments : List String)
    (zone_0 : Nat) (selected : List (Nat × String)) :
    Except LoadErr (List VarRec × List Nat) :=
  match selected with
  | [] => .error (.exn "NameError: name data is not defined")
  | (_, line0) :: _ =>
    match parseDims line0 with
    | .error e => .error e
    | .ok dimsI =>
      if dimsI.any (fun d => d < 0) then
        .error (.exn "ValueError: negative dimensions are not allowed")
      else
        match dimsI.map Int.toNat with
        | d1 :: d2 :: d3 :: tl =>
          match runZones fileLines varNames.length (d1 :: d2 :: d3 :: tl)
              (natProd (d1 :: d2 :: d3 :: tl)) selected
              { pos := zone_0 + 1, line_counter := zone_0 + 1, z := 0,
                data := varNames.map fun var =>
                  { name := var,
                    arr := zerosArr (selected.length :: d1 :: d2 :: d3 :: tl),
                    comment := comments, size1 := d1, size2 := d2, size3 := d3,
                    zone := [] } } with
          | .ok stF => .ok (stF.data, d1 :: d2 :: d3 :: tl)
          | .error e => .error e
        | _ => .error (.exn "IndexError: list index out of range")

/-- The option passes of source lines 184-196, in their fixed order:
permute, make3D, squeeze. -/
def transformRec (permute make3D squeeze : Bool) (dims : List Nat)
    (r : VarRec) : VarRec :=
  let r1 := if permute then
      { r with arr := moveaxis13 r.arr,
               size1 := dims.getD 2 0, size2 := dims.getD 1 0,
               size3 := dims.getD 0 0 }
    else r
  let r2 := if make3D then { r1 with arr := moveaxis03 r1.arr } else r1
  if squeeze then { r2 with arr := squeezeArr r2.arr } else r2

/-- Output packaging (source lines 198-205): with varout, a single declared
variable is returned bare and several as a tuple; without varout the list is
returned as is.  load_plt always passes a record list whose length equals
the number of declared variables, so the empty-list lookup of data[0] cannot
be reached from it. -/
def package (varout : Bool) (nvars : Nat) (data : List VarRec) :
    Except LoadErr PltOut :=
  if varout then
    if nvars = 1 then
      match data with
      | r :: _ => .ok (.one r)
      | [] => .error (.exn "IndexError: list index out of range")
    else .ok (.tup data)
  else .ok (.lst data)

/-- load_plt (source lines 4-205) over the file's lines.  The os.path.isfile
existence check is an I/O shim outside the model.  Order of stages follows
the source: scan, zones[0] (line 90, before any emptiness check), the
first_zone guard, slicing, the emptiness guard, header parse, the VARIABLES
guard, the zone loop, the transforms, packaging. -/
def load_plt (fileLines : List String) (permute squeeze make3D varout : Bool)
    (first_zone : Nat) (n_zones : Option Nat) (skip_zones : Nat) :
    Except LoadErr PltOut :=
  match scanPltZones fileLines with
  | .error e => .error e
  | .ok (scanned, _) =>
    match scanned.head? with
    | none => .error (.exn "IndexError: list index out of range")
    | some z0p =>
      match zoneSelect scanned first_zone n_zones skip_zones with
      | .error e => .error e
      | .ok selected =>
        match parseHeader (fileLines.take (z0p.1 + 1)) ([], []) with
        | .error e => .error e
        | .ok (comments, varNames) =>
          if varNames.length = 0 then .error (.warn "VARIABLES line not found")
          else
            match readZones fileLines varNames comments z0p.1 selected with
            | .error e => .error e
            | .ok (data, dims) =>
              package varout varNames.length
                (data.map (transformRec permute make3D squeeze dims))

/-- Records carried by a load_plt result. -/
def recordsOf : PltOut → List VarRec
  | .one r => [r]
  | .tup rs => rs
  | .lst rs => rs

def outRecords : Except LoadErr PltOut → Option (List VarRec)
  | .ok o => some (recordsOf o)
  | .error _ => none

/-- Shape of the first record's array. -/
def outShape (x : Except LoadErr PltOut) : Option (List Nat) :=
  (outRecords x).bind fun rs => rs.head?.map fun r => r.arr.shape

/-- Zone labels of the first record. -/
def outZone0 (x : Except LoadErr PltOut) : Option (List String) :=
  (outRecords x).bind fun rs => rs.head?.map fun r => r.zone

/-- Zone-label list length of every record. -/
def recZoneLens (x : Except LoadErr PltOut) : Option (List Nat) :=
  (outRecords x).map fun rs => rs.map fun r => r.zone.length

/-- Zone-axis (leading) extent of every record's array. -/
def recZoneAxes (x : Except LoadErr PltOut) : Option (List Nat) :=
  (outRecords x).map fun rs => rs.map fun r => r.arr.shape.headD 0

def isOneRec : Except LoadErr PltOut → Bool
  | .ok (.one _) => true
  | _ => false

def isLst : Except LoadErr PltOut → Bool
  | .ok (.lst _) => true
  | _ => false

def okOut : Except LoadErr PltOut → Bool
  | .ok _ => true
  | .error _ => false

/-- Variable names declared in the header region, None when the stages
before the loop already fail. -/
def headerVars (fileLines : List String) : Option (List String) :=
  match scanPltZones fileLines with
  | .error _ => none
  | .ok (scanned, _) =>
    match scanned.head? with
    | none => none
    | some z0p =>
      match parseHeader (fileLines.take (z0p.1 + 1)) ([], []) with
      | .error _ => none
      | .ok (_, vars) => some vars

/-- Number of zone markers found by the scan. -/
def scanCount (fileLines : List String) : Option Nat :=
  match scanPltZones fileLines with
  | .error _ => none
  | .ok (scanned, _) => some scanned.length

/-- Nonnegative-skip check along the reader's cursor: at each selected zone
index the discard count zoneSkip is nonnegative, the cursor then moving to
nextCounter. -/
def cursorOk (lines_number : Nat) : Nat → List Nat → Bool
  | _, [] => true
  | lc, idx :: rest =>
    decide (0 ≤ zoneSkip lc idx) && cursorOk lines_number (nextCounter idx lines_number) rest

/-- Synthetic file: one variable, two zones, I=2 J=1 K=1. -/
def file2 : List String :=
  ["VARIABLES = \"V\"",
   "ZONE T=\"z0\" I=2 J=1 K=1",
   "1.0",
   "2.0",
   "ZONE T=\"z1\" I=2 J=1 K=1",
   "3.0",
   "4.0"]

/-- Synthetic file: a VARIABLES line but no zone marker at all. -/
def file4 : List String := ["VARIABLES = \"V\""]

/-- Synthetic file: two declared variables whose two data rows carry a
single column each, so the per-zone matrix parses as 1-D. -/
def file8 : List String :=
  ["VARIABLES = \"A\", \"B\"",
   "ZONE T=\"t0\" I=2 J=1 K=1",
   "1.0",
   "2.0"]

/-- A concrete rank-4 array. -/
def arr4w : ArrN := { shape := [1, 2, 3, 4], entry := fun _ => decZero }

/-- The payload of a successful load, used to state concrete instances of
theorems about successful loads. -/
def outw (x : Except LoadErr PltOut) : PltOut :=
  match x with
  | .ok o => o
  | .error _ => .lst []

/-- The zone-marker lines of file2, and a variant of the second marker
declaring other dimensions but the same T label. -/
def lineA : String := "ZONE T=\"z0\" I=2 J=1 K=1"

def lineB : String := "ZONE T=\"z1\" I=2 J=1 K=1"

def lineBx : String := "ZONE T=\"z1\" I=9 J=9 K=9"


/-! ### Helper lemmas about the selection slicing -/

theorem stridedGo_sublist {α : Type _} (s : Nat) :
    ∀ (xs : List α) (k : Nat), List.Sublist (stridedGo s xs k) xs := by
  intro xs
  induction xs with
  | nil => intro k; simp [stridedGo]
  | cons x rest ih =>
    intro k
    cases k with
    | zero => exact List.Sublist.cons₂ x (ih (s - 1))
    | succ j => exact List.Sublist.cons x (ih j)

theorem stridedGo_take {α : Type _} (s : Nat) (hs : 1 ≤ s) :
    ∀ (xs : List α) (n k : Nat),
      stridedGo s (xs.take (n * s + k)) k = (stridedGo s xs k).take n := by
  intro xs
  induction xs with
  | nil => intro n k; simp [stridedGo]
  | cons x rest ih =>
    intro n k
    cases k with
    | zero =>
      cases n with
      | zero => simp [stridedGo]
      | succ m =>
        have h1 : (m + 1) * s + 0 = m * s + (s - 1) + 1 := by
          rw [Nat.succ_mul]; omega
        rw [h1, List.take_succ_cons]
        simp only [stridedGo, List.take_succ_cons]
        rw [ih m (s - 1)]
    | succ j =>
      have h1 : n * s + (j + 1) = n * s + j + 1 := rfl
      rw [h1, List.take_succ_cons]
      simp only [stridedGo]
      exact ih n j

theorem selCore_some {α : Type _} (zones : List α) (f n k : Nat) :
    selCore zones f (some n) k = (strided (k + 1) (zones.drop f)).take n := by
  have h := stridedGo_take (k + 1) (Nat.succ_le_succ (Nat.zero_le k))
    (zones.drop f) n 0
  simpa [selCore, strided] using h

theorem selCore_sublist {α : Type _} (zones : List α) (f : Nat) (n : Option Nat)
    (k : Nat) : List.Sublist (selCore zones f n k) zones := by
  cases n with
  | none =>
    exact (stridedGo_sublist (k + 1) (zones.drop f) 0).trans
      (List.drop_sublist f zones)
  | some m =>
    exact ((stridedGo_sublist (k + 1) _ 0).trans (List.take_sublist _ _)).trans
      (List.drop_sublist f zones)

/-! ### Claim C1 -/

/-- Claim C1: the zone selection equals the stride-(skip_zones+1) slice of
the zones remaining after dropping first_zone of them, truncated to n_zones
elements when n_zones is given; skip_zones=1, n_zones=2 on a 5-zone list with
first_zone=0 selects exactly positions 0 and 2; the selection is a
subsequence, so any strict increase of the input indices is preserved, and
its length is at most n_zones. -/
theorem C1_zone_selection :
    (∀ (zones : List (Nat × String)) (f n k : Nat),
      selCore zones f (some n) k = (strided (k + 1) (zones.drop f)).take n
      ∧ selCore zones f none k = strided (k + 1) (zones.drop f))
    ∧ (∀ a b c d e : Nat × String, selCore [a, b, c, d, e] 0 (some 2) 1 = [a, c])
    ∧ (∀ (α : Type) (R : α → α → Prop) (zones : List α) (f : Nat)
        (n : Option Nat) (k : Nat),
      zones.Pairwise R → (selCore zones f n k).Pairwise R)
    ∧ (∀ (zones : List (Nat × String)) (f n k : Nat),
      (selCore zones f (some n) k).length ≤ n) := by
  refine ⟨fun zones f n k => ⟨selCore_some zones f n k, rfl⟩, ?_, ?_, ?_⟩
  · intro a b c d e; rfl
  · intro α R zones f n k h
    exact List.Pairwise.sublist (selCore_sublist zones f n k) h
  · intro zones f n k
    rw [selCore_some]
    exact List.length_take_le n _

theorem C1_witness :
    ([(1, "a"), (3, "b"), (5, "c"), (7, "d"), (9, "e")] : List (Nat × String)).Pairwise
      (fun p q => p.1 < q.1)
    ∧ (selCore [(1, "a"), (3, "b"), (5, "c"), (7, "d"), (9, "e")] 0 (some 2) 1).Pairwise
      (fun p q => p.1 < q.1) :=
  have h : ([(1, "a"), (3, "b"), (5, "c"), (7, "d"), (9, "e")] :
      List (Nat × String)).Pairwise (fun p q => p.1 < q.1) := by decide
  ⟨h, C1_zone_selection.2.2.1 (Nat × String) _ _ 0 (some 2) 1 h⟩

/-! ### Claim C3 -/

/-- Claim C3: the zone selection fails with the first_zone out-of-range
warning exactly when first_zone exceeds the number of scanned zones; in
particular first_zone equal to the length does not produce it. -/
theorem C3_zone_index_bound :
    ∀ (zones : List (Nat × String)) (f : Nat) (n : Option Nat) (k : Nat),
      (zoneSelect zones f n k
        = .error (.warn "first_zone is greater than the number of available zones"))
      ↔ f > zones.length := by
  intro zones f n k
  constructor
  · intro he
    by_contra hle
    unfold zoneSelect at he
    rw [if_neg hle] at he
    by_cases h2 : (selCore zones f n k).length = 0
    · rw [if_pos h2] at he
      have h3 : ("No zones available to read" : String)
          = "first_zone is greater than the number of available zones" := by
        injection he with h4; injection h4
      exact absurd h3 (by decide)
    · rw [if_neg h2] at he
      exact absurd he (by simp)
  · intro hgt
    unfold zoneSelect
    rw [if_pos hgt]

theorem C3_witness :
    zoneSelect ([] : List (Nat × String)) 1 none 0
      = .error (.warn "first_zone is greater than the number of available zones")
    ∧ 1 > ([] : List (Nat × String)).length :=
  ⟨(C3_zone_index_bound [] 1 none 0).mpr (by decide), by decide⟩

/-! ### Claims C2 and C4: concrete evaluations -/

/-- Claim C2 counterexample: on the synthetic 1-variable 2-zone file with
I=2 J=1 K=1, loading with default options yields shape (2,1,1,2), not
(2,2,1,1): the default permute pass reverses the three spatial axes. -/
theorem C2_counterexample :
    outShape (load_plt file2 true false false true 0 none 0) = some [2, 1, 1, 2]
    ∧ ¬ outShape (load_plt file2 true false false true 0 none 0)
        = some [2, 2, 1, 1] :=
  ⟨rfl, by decide⟩

/-- Claim C2 amended: loading the synthetic file with default options yields
the single record bare, with data shape (2,1,1,2) (the allocated (2,2,1,1)
buffer with its spatial axes reversed by permute) and the two zones' T
labels in file order. -/
theorem C2_round_trip :
    outShape (load_plt file2 true false false true 0 none 0) = some [2, 1, 1, 2]
    ∧ outZone0 (load_plt file2 true false false true 0 none 0)
        = some ["z0", "z1"]
    ∧ isOneRec (load_plt file2 true false false true 0 none 0) = true :=
  ⟨rfl, rfl, rfl⟩

/-- Claim C4: a file with a VARIABLES line and zero zone markers makes
load_plt crash with an uncaught IndexError at the zones[0] access of source
line 90, which runs before any emptiness check; the soft "no zones" warning
of line 109 is never reached. -/
theorem C4_no_zones_crash :
    scanCount file4 = some 0
    ∧ load_plt file4 true false false true 0 none 0
        = .error (.exn "IndexError: list index out of range") :=
  ⟨rfl, rfl⟩

/-! ### Claim C5 -/

/-- Claim C5 counterexample: on a file declaring exactly one variable,
loading with varout = false does not return the bare record: it returns a
list (of one record), so the unwrapping is not independent of varout. -/
theorem C5_counterexample :
    isOneRec (load_plt file2 true false false false 0 none 0) = false
    ∧ isLst (load_plt file2 true false false false 0 none 0) = true
    ∧ (headerVars file2).map List.length = some 1 :=
  ⟨rfl, rfl, rfl⟩

/-- Claim C5 amended: the record is unwrapped only when varout is true and
exactly one variable is declared; with varout true and several variables a
tuple is returned; with varout false a list is returned in every case, all
in declaration order. -/
theorem C5_packaging :
    (∀ (nv : Nat) (rs : List VarRec), package false nv rs = .ok (.lst rs))
    ∧ (∀ (r : VarRec) (rs : List VarRec), package true 1 (r :: rs) = .ok (.one r))
    ∧ (∀ (nv : Nat) (rs : List VarRec), nv ≠ 1 → package true nv rs = .ok (.tup rs))
    ∧ isOneRec (load_plt file2 true false false true 0 none 0) = true
    ∧ isLst (load_plt file2 true false false false 0 none 0) = true := by
  refine ⟨fun nv rs => rfl, fun r rs => rfl, fun nv rs h => ?_, rfl, rfl⟩
  simp [package, h]

theorem C5_witness :
    (2 ≠ 1) ∧ package true 2 ([] : List VarRec) = .ok (.tup []) :=
  ⟨by decide, C5_packaging.2.2.1 2 [] (by decide)⟩

/-! ### Claim C9 -/

theorem swap13_swap13 (l : List Nat) : swap13 (swap13 l) = l := by
  match l with
  | [] => rfl
  | [a] => rfl
  | [a, b] => rfl
  | [a, b, c] => rfl
  | a :: b :: c :: d :: rest => rfl

/-- Claim C9: the permute transform (spatial-axis reversal of a rank-4
array) is an involution: applying it twice restores the array. -/
theorem C9_permute_involution :
    ∀ (a : ArrN), a.shape.length = 4 → moveaxis13 (moveaxis13 a) = a := by
  intro a _
  cases a with
  | mk shape entry =>
    simp only [moveaxis13]
    congr 1
    · exact swap13_swap13 shape
    · funext idx
      rw [swap13_swap13]

theorem C9_witness :
    arr4w.shape.length = 4 ∧ moveaxis13 (moveaxis13 arr4w) = arr4w :=
  ⟨rfl, C9_permute_involution arr4w rfl⟩

/-! ### Helper lemmas about one reader step -/

theorem readZone_ok {fileLines : List String} {nvars : Nat} {dims : List Nat}
    {ln : Nat} {st : RdState} {zone : Nat × String} {st2 : RdState}
    (h : readZone fileLines nvars dims ln st zone = .ok st2) :
    st2.line_counter = nextCounter zone.1 ln
    ∧ st2.pos = st.pos + (zoneSkip st.line_counter zone.1).toNat + ln
    ∧ st2.z = st.z + 1
    ∧ ∃ mat T, assign st.z dims nvars mat T st.data = .ok st2.data := by
  unfold readZone at h
  split at h
  · exact Except.noConfusion h
  next mat heq1 =>
    split at h
    · exact Except.noConfusion h
    next T heq2 =>
      split at h
      · exact Except.noConfusion h
      next data2 heq3 =>
        injection h with h4
        subst h4
        exact ⟨rfl, rfl, rfl, mat, T, heq3⟩

theorem updCols_length (z : Nat) (dims : List Nat) (mat : TxtMat) (T : String)
    (nv : Nat) : ∀ (v : Nat) (data : List VarRec),
    (updCols z dims mat T nv v data).length = data.length := by
  intro v data
  induction data generalizing v with
  | nil => rfl
  | cons d rest ih => simp [updCols, ih]

theorem updCols_mem {z : Nat} {dims : List Nat} {mat : TxtMat} {T : String}
    {nv : Nat} : ∀ {v : Nat} {data : List VarRec} {r2 : VarRec},
    r2 ∈ updCols z dims mat T nv v data →
    ∃ r ∈ data, r2.arr.shape = r.arr.shape
      ∧ (r2.zone = r.zone ∨ r2.zone = r.zone ++ [T]) := by
  intro v data
  induction data generalizing v with
  | nil => intro r2 h; simp [updCols] at h
  | cons d rest ih =>
    intro r2 h
    simp only [updCols, List.mem_cons] at h
    rcases h with h | h
    · by_cases hv : v < nv
      · rw [if_pos hv] at h
        exact ⟨d, List.mem_cons_self d rest, by simp [h, setZoneArr], Or.inr (by simp [h])⟩
      · rw [if_neg hv] at h
        exact ⟨d, List.mem_cons_self d rest, by simp [h], Or.inl (by simp [h])⟩
    · obtain ⟨r, hr, h2, h3⟩ := ih h
      exact ⟨r, List.mem_cons_of_mem d hr, h2, h3⟩

theorem updCols_head {z : Nat} {dims : List Nat} {mat : TxtMat} {T : String}
    {nv : Nat} (hnv : 0 < nv) (d : VarRec) (rest : List VarRec) :
    (updCols z dims mat T nv 0 (d :: rest)).head?
      = some { d with arr := setZoneArr d.arr z dims (txtCol mat 0),
                      zone := d.zone ++ [T] } := by
  simp [updCols, hnv]

theorem assign_ok {z : Nat} {dims : List Nat} {nvars : Nat} {mat : TxtMat}
    {T : String} {data data2 : List VarRec}
    (h : assign z dims nvars mat T data = .ok data2) :
    data2.length = data.length
    ∧ (∀ r2 ∈ data2, ∃ r ∈ data, r2.arr.shape = r.arr.shape
        ∧ (r2.zone = r.zone ∨ r2.zone = r.zone ++ [T]))
    ∧ (0 < nvars → ∀ r2, data2.head? = some r2 →
        ∃ r, data.head? = some r ∧ r2.zone = r.zone ++ [T]) := by
  unfold assign at h
  split at h
  · split at h
    · split at h
      next d0 rest =>
        injection h with h2
        subst h2
        refine ⟨by simp, ?_, ?_⟩
        · intro r2 hm
          rcases List.mem_cons.mp hm with h3 | h3
          · subst h3
            exact ⟨d0, List.mem_cons_self d0 rest, rfl, Or.inr rfl⟩
          · exact ⟨r2, List.mem_cons_of_mem d0 h3, rfl, Or.inl rfl⟩
        · intro _ r2 hh
          injection hh with h3
          exact ⟨d0, rfl, by rw [← h3]⟩
      next => exact Except.noConfusion h
    · exact Except.noConfusion h
  · split at h
    · exact Except.noConfusion h
    · split at h
      · exact Except.noConfusion h
      · split at h
        · exact Except.noConfusion h
        · injection h with h2
          subst h2
          refine ⟨updCols_length z dims mat T nvars 0 data, ?_, ?_⟩
          · intro r2 hm
            exact updCols_mem hm
          · intro hnv r2 hh
            cases data with
            | nil => simp [updCols] at hh
            | cons d rest =>
              rw [updCols_head hnv d rest] at hh
              injection hh with h3
              exact ⟨d, rfl, by rw [← h3]⟩

/-! ### Helper lemmas about the zone loop -/

theorem runZones_inv {fileLines : List String} {nvars : Nat} {dims : List Nat}
    {ln : Nat} (P : RdState → Prop)
    (hstep : ∀ st zone st2, readZone fileLines nvars dims ln st zone = .ok st2 →
      P st → P st2) :
    ∀ (sel : List (Nat × String)) (st stF : RdState),
      runZones fileLines nvars dims ln sel st = .ok stF → P st → P stF := by
  intro sel
  induction sel with
  | nil =>
    intro st stF h hP
    simp only [runZones] at h
    injection h with h2
    subst h2
    exact hP
  | cons zone rest ih =>
    intro st stF h hP
    simp only [runZones] at h
    split at h
    next st2 heq => exact ih st2 stF h (hstep st zone st2 heq hP)
    next e heq => exact Except.noConfusion h

theorem runZones_z {fileLines : List String} {nvars : Nat} {dims : List Nat}
    {ln : Nat} : ∀ (sel : List (Nat × String)) (st stF : RdState),
    runZones fileLines nvars dims ln sel st = .ok stF →
    stF.z = st.z + sel.length := by
  intro sel
  induction sel with
  | nil =>
    intro st stF h
    simp only [runZones] at h
    injection h with h2
    subst h2
    simp
  | cons zone rest ih =>
    intro st stF h
    simp only [runZones] at h
    split at h
    next st2 heq =>
      have h1 := ih st2 stF h
      have h2 := (readZone_ok heq).2.2.1
      rw [h1, h2]
      simp only [List.length_cons]
      omega
    next e heq => exact Except.noConfusion h

theorem readZone_congr {fileLines : List String} {nvars : Nat} {dims : List Nat}
    {ln : Nat} {st : RdState} {i : Nat} {l l2 : String}
    (hT : zoneT l = zoneT l2) :
    readZone fileLines nvars dims ln st (i, l)
      = readZone fileLines nvars dims ln st (i, l2) := by
  unfold readZone
  rw [hT]

theorem runZones_congr {fileLines : List String} {nvars : Nat} {dims : List Nat}
    {ln : Nat} : ∀ (sel sel2 : List (Nat × String)) (st : RdState),
    sel.map Prod.fst = sel2.map Prod.fst →
    (sel.map fun p => zoneT p.2) = (sel2.map fun p => zoneT p.2) →
    runZones fileLines nvars dims ln sel st
      = runZones fileLines nvars dims ln sel2 st := by
  intro sel
  induction sel with
  | nil =>
    intro sel2 st h1 h2
    cases sel2 with
    | nil => rfl
    | cons q qs => simp at h1
  | cons zone rest ih =>
    intro sel2 st h1 h2
    cases sel2 with
    | nil => simp at h1
    | cons zone2 rest2 =>
      simp only [List.map_cons, List.cons.injEq] at h1 h2
      obtain ⟨hf, hrest⟩ := h1
      obtain ⟨hT, hTrest⟩ := h2
      obtain ⟨i, l⟩ := zone
      obtain ⟨i2, l2⟩ := zone2
      simp only at hf hT
      subst hf
      simp only [runZones]
      rw [readZone_congr hT]
      cases hed : readZone fileLines nvars dims ln st (i, l2) with
      | ok st2 => exact ih rest2 st2 hrest hTrest
      | error e => rfl

/-! ### Structure of a successful readZones -/

theorem readZones_ok_struct {fl : List String} {vars comments : List String}
    {z0 : Nat} {sel : List (Nat × String)} {data : List VarRec} {dims : List Nat}
    (h : readZones fl vars comments z0 sel = .ok (data, dims)) :
    (∃ p rest dimsI, sel = p :: rest ∧ parseDims p.2 = .ok dimsI
        ∧ dims = dimsI.map Int.toNat)
    ∧ data.length = vars.length
    ∧ (∀ r ∈ data, r.arr.shape = sel.length :: dims) := by
  match sel with
  | [] =>
    simp only [readZones] at h
    exact Except.noConfusion h
  | (i0, l0) :: rest =>
    simp only [readZones] at h
    split at h
    next e heqd => exact Except.noConfusion h
    next dimsI heqd =>
      split at h
      · exact Except.noConfusion h
      next hneg =>
        split at h
        next d1 d2 d3 tl heqm =>
          split at h
          next stF heqr =>
            injection h with hpair
            injection hpair with hdata hdims
            subst hdata
            subst hdims
            refine ⟨⟨(i0, l0), rest, dimsI, rfl, heqd, heqm.symm⟩, ?_⟩
            have hstep : ∀ st zone st2,
                readZone fl vars.length (d1 :: d2 :: d3 :: tl)
                  (natProd (d1 :: d2 :: d3 :: tl)) st zone = .ok st2 →
                (st.data.length = vars.length
                  ∧ ∀ r ∈ st.data, r.arr.shape
                      = ((i0, l0) :: rest).length :: d1 :: d2 :: d3 :: tl) →
                (st2.data.length = vars.length
                  ∧ ∀ r ∈ st2.data, r.arr.shape
                      = ((i0, l0) :: rest).length :: d1 :: d2 :: d3 :: tl) := by
              intro st zone st2 hz hP
              obtain ⟨_, _, _, mat, T, hassign⟩ := readZone_ok hz
              obtain ⟨hlen, hmem, _⟩ := assign_ok hassign
              constructor
              · rw [hlen]
                exact hP.1
              · intro r2 hr2
                obtain ⟨r, hr, hsh, _⟩ := hmem r2 hr2
                rw [hsh]
                exact hP.2 r hr
            have hinit : ∀ r ∈ List.map (fun var =>
                ({ name := var,
                   arr := zerosArr
                     (((i0, l0) :: rest).length :: d1 :: d2 :: d3 :: tl),
                   comment := comments, size1 := d1, size2 := d2, size3 := d3,
                   zone := [] } : VarRec)) vars, r.arr.shape
                  = ((i0, l0) :: rest).length :: d1 :: d2 :: d3 :: tl := by
              intro r hr
              obtain ⟨v, hv, hveq⟩ := List.mem_map.mp hr
              rw [← hveq]
              rfl
            have hinv := runZones_inv
              (fun st => st.data.length = vars.length
                ∧ ∀ r ∈ st.data, r.arr.shape
                    = ((i0, l0) :: rest).length :: d1 :: d2 :: d3 :: tl)
              hstep ((i0, l0) :: rest) _ stF heqr
              ⟨by simp, hinit⟩
            exact ⟨hinv.1, hinv.2⟩
          next e heqr => exact Except.noConfusion h
        next heqm => exact Except.noConfusion h

theorem readZones_ok_zones {fl : List String} {vars comments : List String}
    {z0 : Nat} {sel : List (Nat × String)} {data : List VarRec} {dims : List Nat}
    (h : readZones fl vars comments z0 sel = .ok (data, dims))
    (hv : 0 < vars.length) :
    (∀ r, data.head? = some r → r.zone.length = sel.length)
    ∧ (∀ r ∈ data, r.zone.length ≤ sel.length) := by
  match sel with
  | [] =>
    simp only [readZones] at h
    exact Except.noConfusion h
  | (i0, l0) :: rest =>
    simp only [readZones] at h
    split at h
    next e heqd => exact Except.noConfusion h
    next dimsI heqd =>
      split at h
      · exact Except.noConfusion h
      next hneg =>
        split at h
        next d1 d2 d3 tl heqm =>
          split at h
          next stF heqr =>
            injection h with hpair
            injection hpair with hdata hdims
            subst hdata
            have hz := runZones_z ((i0, l0) :: rest) _ stF heqr
            have hstep : ∀ st zone st2,
                readZone fl vars.length (d1 :: d2 :: d3 :: tl)
                  (natProd (d1 :: d2 :: d3 :: tl)) st zone = .ok st2 →
                ((∀ r, st.data.head? = some r → r.zone.length = st.z)
                  ∧ ∀ r ∈ st.data, r.zone.length ≤ st.z) →
                ((∀ r, st2.data.head? = some r → r.zone.length = st2.z)
                  ∧ ∀ r ∈ st2.data, r.zone.length ≤ st2.z) := by
              intro st zone st2 hzz hP
              obtain ⟨_, _, hz2, mat, T, hassign⟩ := readZone_ok hzz
              obtain ⟨_, hmem, hhead⟩ := assign_ok hassign
              constructor
              · intro r2 hh
                obtain ⟨r, hr, hzeq⟩ := hhead hv r2 hh
                rw [hz2, hzeq, List.length_append]
                have := hP.1 r hr
                simp [this]
              · intro r2 hr2
                obtain ⟨r, hr, _, hzor⟩ := hmem r2 hr2
                rw [hz2]
                rcases hzor with hzeq | hzeq
                · rw [hzeq]
                  exact Nat.le_succ_of_le (hP.2 r hr)
                · rw [hzeq, List.length_append]
                  have := hP.2 r hr
                  simp
                  omega
            have hinit1 : ∀ r, (List.map (fun var =>
                ({ name := var,
                   arr := zerosArr
                     (((i0, l0) :: rest).length :: d1 :: d2 :: d3 :: tl),
                   comment := comments, size1 := d1, size2 := d2, size3 := d3,
                   zone := [] } : VarRec)) vars).head? = some r →
                r.zone.length = 0 := by
              intro r hh
              cases vars with
              | nil => simp at hv
              | cons v0 vrest =>
                simp only [List.map_cons, List.head?_cons] at hh
                injection hh with h3
                rw [← h3]
                rfl
            have hinit2 : ∀ r ∈ List.map (fun var =>
                ({ name := var,
                   arr := zerosArr
                     (((i0, l0) :: rest).length :: d1 :: d2 :: d3 :: tl),
                   comment := comments, size1 := d1, size2 := d2, size3 := d3,
                   zone := [] } : VarRec)) vars, r.zone.length ≤ 0 := by
              intro r hr
              obtain ⟨v, hv2, hveq⟩ := List.mem_map.mp hr
              rw [← hveq]
              exact Nat.le_refl 0
            have hinv := runZones_inv
              (fun st => (∀ r, st.data.head? = some r → r.zone.length = st.z)
                ∧ ∀ r ∈ st.data, r.zone.length ≤ st.z)
              hstep ((i0, l0) :: rest) _ stF heqr ⟨hinit1, hinit2⟩
            constructor
            · intro r hr
              have h1 := hinv.1 r hr
              rw [h1, hz]
              simp
            · intro r hr
              have h1 := hinv.2 r hr
              rw [hz] at h1
              simpa using h1
          next e heqr => exact Except.noConfusion h
        next heqm => exact Except.noConfusion h

/-! ### Transform and packaging helpers -/

theorem transformRec_zone (p m s : Bool) (dims : List Nat) (r : VarRec) :
    (transformRec p m s dims r).zone = r.zone := by
  cases p <;> cases m <;> cases s <;> rfl

theorem swap13_headD (l : List Nat) : (swap13 l).headD 0 = l.headD 0 := by
  match l with
  | [] => rfl
  | [a] => rfl
  | [a, b] => rfl
  | [a, b, c] => rfl
  | a :: b :: c :: d :: rest => rfl

theorem transformRec_headD (p : Bool) (dims : List Nat) (r : VarRec) :
    (transformRec p false false dims r).arr.shape.headD 0
      = r.arr.shape.headD 0 := by
  cases p
  · rfl
  · show (swap13 r.arr.shape).headD 0 = r.arr.shape.headD 0
    exact swap13_headD r.arr.shape

theorem package_records {vo : Bool} {nv : Nat} {data : List VarRec}
    {out : PltOut} (h : package vo nv data = .ok out) :
    (recordsOf out).head? = data.head? ∧ ∀ r ∈ recordsOf out, r ∈ data := by
  unfold package at h
  split at h
  · split at h
    · split at h
      next r rest =>
        injection h with h2
        subst h2
        refine ⟨rfl, ?_⟩
        intro x hx
        rcases List.mem_cons.mp hx with h3 | h3
        · subst h3
          exact List.mem_cons_self x rest
        · simp at h3
      next => exact Except.noConfusion h
    · injection h with h2
      subst h2
      exact ⟨rfl, fun r hr => hr⟩
  · injection h with h2
    subst h2
    exact ⟨rfl, fun r hr => hr⟩

/-! ### Claim C6 -/

/-- Claim C6: the dimensionality triple is parsed exactly once, from the
first selected zone's marker: the result of the zone loop is unchanged when
every later marker line is replaced by any line with the same T label
(its declared attributes are never consulted); on success every record's
array is allocated with shape (number of selected zones :: dims) where dims
comes from the first marker; and each zone advances the stream position by
exactly lines_number (the product of that one triple) lines beyond the skip. -/
theorem C6_first_zone_dims :
    (∀ (fileLines vars comments : List String) (z0 i0 : Nat) (l0 : String)
        (rest rest2 : List (Nat × String)),
      rest.map Prod.fst = rest2.map Prod.fst →
      (rest.map fun p => zoneT p.2) = (rest2.map fun p => zoneT p.2) →
      readZones fileLines vars comments z0 ((i0, l0) :: rest)
        = readZones fileLines vars comments z0 ((i0, l0) :: rest2))
    ∧ (∀ (fileLines vars comments : List String) (z0 : Nat)
        (sel : List (Nat × String)) (data : List VarRec) (dims : List Nat),
      readZones fileLines vars comments z0 sel = .ok (data, dims) →
      (∃ p rest dimsI, sel = p :: rest ∧ parseDims p.2 = .ok dimsI
          ∧ dims = dimsI.map Int.toNat)
      ∧ data.length = vars.length
      ∧ (∀ r ∈ data, r.arr.shape = sel.length :: dims))
    ∧ (∀ (fileLines : List String) (nvars : Nat) (dims : List Nat) (ln : Nat)
        (st : RdState) (zone : Nat × String) (st2 : RdState),
      readZone fileLines nvars dims ln st zone = .ok st2 →
      st2.pos = st.pos + (zoneSkip st.line_counter zone.1).toNat + ln) := by
  refine ⟨?_, fun fl vars comments z0 sel data dims h => readZones_ok_struct h,
    fun fl nv dims ln st zone st2 h => (readZone_ok h).2.1⟩
  intro fl vars comments z0 i0 l0 rest rest2 h1 h2
  have hlen : rest.length = rest2.length := by
    have h3 := congrArg List.length h1
    simpa using h3
  simp only [readZones]
  cases hd : parseDims l0 with
  | error e => rfl
  | ok dimsI =>
    by_cases hneg : dimsI.any (fun d => d < 0)
    · simp [hneg]
    · simp only [Bool.not_eq_true] at hneg
      simp only [hneg]
      rcases hm : dimsI.map Int.toNat with _ | ⟨d1, _ | ⟨d2, _ | ⟨d3, tl⟩⟩⟩
      · rfl
      · rfl
      · rfl
      · simp only [List.length_cons, hlen]
        rw [runZones_congr ((i0, l0) :: rest) ((i0, l0) :: rest2) _
          (by simp [h1]) (by simp [h2])]

theorem C6_witness :
    ([(4, lineB)] : List (Nat × String)).map Prod.fst
      = ([(4, lineBx)] : List (Nat × String)).map Prod.fst
    ∧ (([(4, lineB)] : List (Nat × String)).map fun p => zoneT p.2)
      = (([(4, lineBx)] : List (Nat × String)).map fun p => zoneT p.2)
    ∧ readZones file2 ["V"] [] 1 [(1, lineA), (4, lineB)]
      = readZones file2 ["V"] [] 1 [(1, lineA), (4, lineBx)] :=
  ⟨rfl, rfl,
    C6_first_zone_dims.1 file2 ["V"] [] 1 1 lineA [(4, lineB)] [(4, lineBx)]
      rfl rfl⟩

/-! ### Claim C7 -/

theorem chain_le_pairwise (ln : Nat) :
    ∀ (idxs : List Nat), idxs.Chain' (fun a b => a + ln + 1 ≤ b) →
      idxs.Pairwise (· < ·) := by
  intro idxs
  induction idxs with
  | nil => intro _; exact List.Pairwise.nil
  | cons a rest ih =>
    intro h
    rw [List.chain'_cons'] at h
    obtain ⟨hhd, htl⟩ := h
    refine List.Pairwise.cons ?_ (ih htl)
    cases rest with
    | nil => intro b hb; exact absurd hb (List.not_mem_nil b)
    | cons c rest2 =>
      have hac : a + ln + 1 ≤ c := hhd c rfl
      have hp := ih htl
      rw [List.pairwise_cons] at hp
      intro b hb
      rcases List.mem_cons.mp hb with h1 | h1
      · omega
      · have h2 := hp.1 b h1
        omega

theorem pairwise_next (ln : Nat) {idxs : List Nat}
    (h : idxs.Pairwise (· < ·)) :
    (idxs.map fun i => nextCounter i ln).Pairwise (· < ·) := by
  rw [List.pairwise_map]
  refine h.imp ?_
  intro a b hab
  unfold nextCounter
  omega

theorem cursorOk_of_chain (ln : Nat) :
    ∀ (idxs : List Nat) (lc0 : Nat),
      idxs.Chain' (fun a b => a + ln + 1 ≤ b) →
      lc0 ≤ idxs.headD lc0 + 1 →
      cursorOk ln lc0 idxs = true := by
  intro idxs
  induction idxs with
  | nil => intro lc0 _ _; rfl
  | cons idx rest ih =>
    intro lc0 hch hhd
    rw [List.chain'_cons'] at hch
    obtain ⟨h1, h2⟩ := hch
    simp only [List.headD_cons] at hhd
    have hskip : (0 : Int) ≤ zoneSkip lc0 idx := by
      unfold zoneSkip
      omega
    have hrec : cursorOk ln (nextCounter idx ln) rest = true := by
      apply ih
      · exact h2
      · cases rest with
        | nil => simp
        | cons c rest2 =>
          have h3 := h1 c rfl
          simp only [List.headD_cons]
          unfold nextCounter
          omega
    simp [cursorOk, hskip, hrec]

/-- Claim C7: under selected zone indices that strictly increase with at
least lines_number data lines between consecutive markers, and an initial
cursor at most one past the first marker, every discard count zoneSkip is
nonnegative and the per-zone cursor values nextCounter strictly increase;
and a successful readZone step always sets line_counter to nextCounter and
increments the zone ordinal. -/
theorem C7_cursor_monotone :
    (∀ (ln lc0 : Nat) (idxs : List Nat),
      idxs.Chain' (fun a b => a + ln + 1 ≤ b) →
      lc0 ≤ idxs.headD lc0 + 1 →
      cursorOk ln lc0 idxs = true
      ∧ (idxs.map fun i => nextCounter i ln).Pairwise (· < ·))
    ∧ (∀ (fileLines : List String) (nvars : Nat) (dims : List Nat) (ln : Nat)
        (st : RdState) (zone : Nat × String) (st2 : RdState),
      readZone fileLines nvars dims ln st zone = .ok st2 →
      st2.line_counter = nextCounter zone.1 ln ∧ st2.z = st.z + 1) := by
  constructor
  · intro ln lc0 idxs hch hhd
    exact ⟨cursorOk_of_chain ln idxs lc0 hch hhd,
      pairwise_next ln (chain_le_pairwise ln idxs hch)⟩
  · intro fl nv dims ln st zone st2 h
    exact ⟨(readZone_ok h).1, (readZone_ok h).2.2.1⟩

theorem C7_witness :
    (([1, 4] : List Nat).Chain' (fun a b => a + 2 + 1 ≤ b)
      ∧ (2 : Nat) ≤ ([1, 4] : List Nat).headD 2 + 1)
    ∧ cursorOk 2 2 [1, 4] = true
    ∧ (([1, 4] : List Nat).map fun i => nextCounter i 2).Pairwise (· < ·) :=
  have h1 : ([1, 4] : List Nat).Chain' (fun a b => a + 2 + 1 ≤ b) := by
    rw [List.chain'_cons']
    refine ⟨?_, List.chain'_singleton 4⟩
    intro y hy
    injection hy with h3
    omega
  have h2 : (2 : Nat) ≤ ([1, 4] : List Nat).headD 2 + 1 := by decide
  ⟨⟨h1, h2⟩, (C7_cursor_monotone.1 2 2 [1, 4] h1 h2).1,
    (C7_cursor_monotone.1 2 2 [1, 4] h1 h2).2⟩

/-! ### Claim C10 -/

/-- Claim C10: with varout false the loader always returns the mutable-list
packaging, and on a file declaring exactly one variable the returned list
holds exactly one record; the unwrapped form never occurs with varout false. -/
theorem C10_varout_false_list :
    (∀ (fileLines : List String) (p s3 m : Bool) (f : Nat) (n : Option Nat)
        (k : Nat) (out : PltOut) (v : String),
      load_plt fileLines p s3 m false f n k = .ok out →
      headerVars fileLines = some [v] →
      ∃ r, out = .lst [r])
    ∧ (∀ (nv : Nat) (rs : List VarRec), package false nv rs = .ok (.lst rs)) := by
  refine ⟨?_, fun nv rs => rfl⟩
  intro fl p s3 m f n k out v hload hvars
  simp only [load_plt] at hload
  split at hload
  next e heq1 => exact Except.noConfusion hload
  next scanned nl heq1 =>
    split at hload
    next heq2 => exact Except.noConfusion hload
    next z0p heq2 =>
      split at hload
      next e heq3 => exact Except.noConfusion hload
      next selected heq3 =>
        split at hload
        next e heq4 => exact Except.noConfusion hload
        next comments varsH heq4 =>
          split at hload
          next hlen0 => exact Except.noConfusion hload
          next hlen0 =>
            split at hload
            next e heq5 => exact Except.noConfusion hload
            next data dims heq5 =>
              simp only [package] at hload
              injection hload with h6
              simp only [headerVars, heq1, heq2, heq4] at hvars
              injection hvars with hv2
              have hlen := (readZones_ok_struct heq5).2.1
              have hlen2 : (data.map (transformRec p m s3 dims)).length = 1 := by
                rw [List.length_map, hlen, hv2]
                rfl
              obtain ⟨r, hr⟩ := List.length_eq_one.mp hlen2
              exact ⟨r, by rw [← h6, hr]⟩

theorem C10_witness :
    load_plt file2 true false false false 0 none 0
      = .ok (outw (load_plt file2 true false false false 0 none 0))
    ∧ headerVars file2 = some ["V"]
    ∧ ∃ r, outw (load_plt file2 true false false false 0 none 0) = .lst [r] :=
  ⟨rfl, rfl,
    C10_varout_false_list.1 file2 true false false 0 none 0
      (outw (load_plt file2 true false false false 0 none 0)) "V" rfl rfl⟩

/-! ### Claim C8 -/

/-- Claim C8 counterexample: a file declaring two variables whose per-zone
matrix parses as 1-D loads successfully, but only the first record receives
a zone label: the second record has zone_labels of length 0 while its zone
axis has extent 1, so the claimed equality fails for it. -/
theorem C8_counterexample :
    recZoneLens (load_plt file8 true false false true 0 none 0) = some [1, 0]
    ∧ recZoneAxes (load_plt file8 true false false true 0 none 0) = some [1, 1]
    ∧ ¬ recZoneLens (load_plt file8 true false false true 0 none 0)
        = recZoneAxes (load_plt file8 true false false true 0 none 0) :=
  ⟨rfl, rfl, by decide⟩

/-- Claim C8 amended: for every successful load with make3D and squeeze off,
the first variable record's zone_labels length equals the zone-axis extent
of its array, and every record's zone_labels length is at most that extent;
the counterexample shows the bound strict for records after the first when
a zone's matrix parses as 1-D with several declared variables. -/
theorem C8_zone_label_lengths :
    ∀ (fileLines : List String) (p vo : Bool) (f : Nat) (n : Option Nat)
      (k : Nat) (out : PltOut),
      load_plt fileLines p false false vo f n k = .ok out →
      (∀ r, (recordsOf out).head? = some r → r.zone.length = r.arr.shape.headD 0)
      ∧ (∀ r ∈ recordsOf out, r.zone.length ≤ r.arr.shape.headD 0) := by
  intro fl p vo f n k out hload
  simp only [load_plt] at hload
  split at hload
  next e heq1 => exact Except.noConfusion hload
  next scanned nl heq1 =>
    split at hload
    next heq2 => exact Except.noConfusion hload
    next z0p heq2 =>
      split at hload
      next e heq3 => exact Except.noConfusion hload
      next selected heq3 =>
        split at hload
        next e heq4 => exact Except.noConfusion hload
        next comments varsH heq4 =>
          split at hload
          next hlen0 => exact Except.noConfusion hload
          next hlen0 =>
            split at hload
            next e heq5 => exact Except.noConfusion hload
            next data dims heq5 =>
              have hv : 0 < varsH.length := Nat.pos_of_ne_zero hlen0
              have hzs := readZones_ok_zones heq5 hv
              have hst := readZones_ok_struct heq5
              obtain ⟨hpack_head, hpack_mem⟩ := package_records hload
              constructor
              · intro r hr
                rw [hpack_head, List.head?_map] at hr
                cases hd : data.head? with
                | none => rw [hd] at hr; exact Option.noConfusion hr
                | some r0 =>
                  rw [hd] at hr
                  injection hr with hr2
                  rw [← hr2, transformRec_zone, transformRec_headD]
                  have h1 := hzs.1 r0 hd
                  have h2 := hst.2.2 r0 (List.mem_of_mem_head? hd)
                  rw [h1, h2]
                  rfl
              · intro r hr
                have hmem := hpack_mem r hr
                obtain ⟨r0, hr0, hmap⟩ := List.mem_map.mp hmem
                rw [← hmap, transformRec_zone, transformRec_headD]
                have h1 := hzs.2 r0 hr0
                have h2 := hst.2.2 r0 hr0
                rw [h2]
                simpa using h1

theorem C8_witness :
    load_plt file2 true false false true 0 none 0
      = .ok (outw (load_plt file2 true false false true 0 none 0))
    ∧ ((recordsOf (outw (load_plt file2 true false false true 0 none 0))).head?.map
        fun r => r.zone.length)
      = ((recordsOf (outw (load_plt file2 true false false true 0 none 0))).head?.map
        fun r => r.arr.shape.headD 0) := by
  refine ⟨rfl, ?_⟩
  have h := (C8_zone_label_lengths file2 true true 0 none 0
    (outw (load_plt file2 true false false true 0 none 0)) rfl).1
  cases hh : (recordsOf (outw (load_plt file2 true false false true 0 none 0))).head? with
  | none => rfl
  | some r =>
    rw [Option.map_some', Option.map_some', h r hh]

end PyVerbPlt
